import Mathlib

/-!
# Verification of the `verified-concurrent` DST core

Shallow embedding of the deterministic-simulation-testing (DST) crates:
`vf-dst` (DeterministicRng, SimClock, FaultInjector, Scheduler, DstEnv)
and `vf-core` (stack invariant checker).  Machine integers (`u64`, `usize`)
are modelled as `Nat` with explicit reduction `% 2^64` where the source
wraps.  `debug_assert!` contract violations and panics are modelled as
`Option`/rejected branches.  Probabilities (`f64` in the source, always
simple decimal literals) are modelled as exact rationals `ℚ`.
-/

namespace VC

/-- `2^64`, the modulus of Rust `u64` arithmetic. -/
def U64 : Nat := 2 ^ 64

/-! ## The PRNG core: Xoshiro256** seeded via SplitMix64

`DeterministicRng` wraps `rand_xoshiro::Xoshiro256StarStar`, constructed with
`seed_from_u64` (SplitMix64 expansion of the 64-bit seed, as implemented by
`rand_xoshiro`'s `from_splitmix!` macro). -/

/-- State of the Xoshiro256** generator: four 64-bit words. -/
structure Xoshiro where
  s0 : Nat
  s1 : Nat
  s2 : Nat
  s3 : Nat

/-- One SplitMix64 step: returns `(output, new state)`.  Mirrors
`rand_xoshiro`'s `SplitMix64` used by `seed_from_u64`. -/
def splitmixNext (state : Nat) : Nat × Nat :=
  let state := (state + 0x9e3779b97f4a7c15) % U64
  let z := state
  let z := ((z ^^^ (z >>> 30)) * 0xbf58476d1ce4e5b9) % U64
  let z := ((z ^^^ (z >>> 27)) * 0x94d049bb133111eb) % U64
  let z := z ^^^ (z >>> 31)
  (z, state)

/-- 64-bit rotate left by `k` (for `0 < k < 64` and `x < 2^64`). -/
def rotl64 (x k : Nat) : Nat :=
  (((x <<< k) % U64) ||| (x >>> (64 - k)))

/-- `Xoshiro256StarStar::seed_from_u64`: the four state words are four
successive SplitMix64 outputs. -/
def Xoshiro.seed_from_u64 (seed : Nat) : Xoshiro :=
  let p0 := splitmixNext (seed % U64)
  let p1 := splitmixNext p0.2
  let p2 := splitmixNext p1.2
  let p3 := splitmixNext p2.2
  ⟨p0.1, p1.1, p2.1, p3.1⟩

/-- `Xoshiro256StarStar::next_u64`: returns `(output, new state)`. -/
def Xoshiro.next (st : Xoshiro) : Nat × Xoshiro :=
  let result := (rotl64 ((st.s1 * 5) % U64) 7 * 9) % U64
  let t := (st.s1 <<< 17) % U64
  let s2 := st.s2 ^^^ st.s0
  let s3 := st.s3 ^^^ st.s1
  let s1 := st.s1 ^^^ s2
  let s0 := st.s0 ^^^ s3
  let s2 := s2 ^^^ t
  let s3 := rotl64 s3 45
  (result, ⟨s0, s1, s2, s3⟩)

/-- Iterate the core generator `k` steps. -/
def Xoshiro.iterate (st : Xoshiro) : Nat → Xoshiro
  | 0 => st
  | k + 1 => Xoshiro.iterate (st.next).2 k

/-! ## DeterministicRng (`vf-dst/src/random.rs`)

The wrapper stores the construction seed, the core generator and a call
counter; every randomness-consuming operation bumps the counter by one. -/

structure DeterministicRng where
  seed : Nat
  rng : Xoshiro
  calls_count : Nat

/-- `DeterministicRng::new(seed)`.  The `debug_assert!(seed != 0)` is a
contract hypothesis carried by the theorems, not a branch of the code. -/
def DeterministicRng.new (seed : Nat) : DeterministicRng :=
  ⟨seed, Xoshiro.seed_from_u64 seed, 0⟩

/-- `DeterministicRng::gen::<u64>()`: one core draw, counter + 1. -/
def DeterministicRng.gen (r : DeterministicRng) : Nat × DeterministicRng :=
  let p := r.rng.next
  (p.1, ⟨r.seed, p.2, r.calls_count + 1⟩)

/-- `DeterministicRng::gen_range(lo..hi)`.  Modelled library function
(`rand`'s uniform integer sampling): one 64-bit core draw mapped into
`[lo, hi)` by the widening multiply `lo + (v * (hi - lo)) >> 64`; the
rare rejection re-draw of `rand`'s zone test is not modelled (no claim
depends on the distribution, only on determinism, range membership and
the counter).  Counter + 1. -/
def DeterministicRng.gen_range (r : DeterministicRng) (lo hi : Nat) :
    Nat × DeterministicRng :=
  let p := r.rng.next
  (lo + p.1 * (hi - lo) / U64, ⟨r.seed, p.2, r.calls_count + 1⟩)

/-- The `u64` acceptance threshold of `rand`'s `Bernoulli(p)`:
for a probability `0 ≤ p ≤ 1` this is `⌊p * 2^64⌋`, computed on the
rational's numerator and denominator (the source computes
`(p * SCALE) as u64` in `f64`). -/
def bernoulliThreshold (p : ℚ) : Nat :=
  ((p.num * (U64 : Int)) / (p.den : Int)).toNat

/-- `DeterministicRng::gen_bool(p)`.  `rand`'s `Bernoulli`: for `p ≥ 1`
always true with no core draw; otherwise one core draw `v`, true iff
`v` is below the threshold.  The wrapper counter + 1 in every case. -/
def DeterministicRng.gen_bool (r : DeterministicRng) (p : ℚ) :
    Bool × DeterministicRng :=
  if 1 ≤ p then
    (true, ⟨r.seed, r.rng, r.calls_count + 1⟩)
  else
    let q := r.rng.next
    (Nat.blt q.1 (bernoulliThreshold p), ⟨r.seed, q.2, r.calls_count + 1⟩)

/-- `DeterministicRng::fork()`: draws one `u64` from `self` and seeds a
brand-new instance with it; returns `(forked, self after the draw)`. -/
def DeterministicRng.fork (r : DeterministicRng) :
    DeterministicRng × DeterministicRng :=
  let p := r.gen
  (DeterministicRng.new p.1, p.2)

/-! ## SimClock (`vf-dst/src/clock.rs`)

The clock holds nanoseconds since epoch.  The atomic it uses in Rust is
irrelevant to the single-advancer model; `advance_ns` is modelled as a
fallible pure update whose `none` case is the `debug_assert!` rejection
(zero delta, or advancing past the reserved bound). -/

/-- `TIME_NS_MAX = u64::MAX - 1_000_000_000_000`. -/
def TIME_NS_MAX : Nat := (U64 - 1) - 1000000000000

structure SimClock where
  now_ns : Nat

def SimClock.new : SimClock := ⟨0⟩

def SimClock.with_start_time_ns (start_ns : Nat) : SimClock := ⟨start_ns⟩

/-- `SimClock::advance_ns(delta)`: rejected (`none`) when `delta = 0`
or when `current > TIME_NS_MAX - delta` (the `u64` subtraction also
underflows when `delta > TIME_NS_MAX`, rejected as well). -/
def SimClock.advance_ns (c : SimClock) (delta_ns : Nat) : Option SimClock :=
  if delta_ns = 0 then none
  else if TIME_NS_MAX < delta_ns then none
  else if TIME_NS_MAX - delta_ns < c.now_ns then none
  else some ⟨c.now_ns + delta_ns⟩

/-! ## FaultInjector (`vf-dst/src/fault.rs`) -/

structure FaultConfig where
  failure_probability : ℚ
  delay_probability : ℚ
  delay_ns_max : Nat
  crash_probability : ℚ
  enabled : Bool

/-- `FaultConfig::default()`: failure 1%, delay 5%, 10 ms max delay,
crash 0.1% (probability literals as exact rationals via `mkRat`). -/
def FaultConfig.default : FaultConfig :=
  ⟨mkRat 1 100, mkRat 5 100, 10000000, mkRat 1 1000, true⟩

/-- `FaultConfig::none()`. -/
def FaultConfig.none : FaultConfig := ⟨0, 0, 0, 0, false⟩

/-- `FaultConfig::aggressive()`: failure 10%, delay 20%, 100 ms max
delay, crash 1%. -/
def FaultConfig.aggressive : FaultConfig :=
  ⟨mkRat 1 10, mkRat 2 10, 100000000, mkRat 1 100, true⟩

/-- `FaultConfig::delays_only()`: delay 20%, 50 ms max delay. -/
def FaultConfig.delays_only : FaultConfig :=
  ⟨0, mkRat 2 10, 50000000, 0, true⟩

structure FaultInjector where
  rng : DeterministicRng
  config : FaultConfig
  faults_injected_count : Nat
  delays_injected_count : Nat
  crashes_injected_count : Nat

def FaultInjector.new (rng : DeterministicRng) (config : FaultConfig) :
    FaultInjector :=
  ⟨rng, config, 0, 0, 0⟩

def FaultInjector.with_default_config (rng : DeterministicRng) : FaultInjector :=
  FaultInjector.new rng FaultConfig.default

/-- `FaultInjector::should_fail()`: returns `(result, new injector)`. -/
def FaultInjector.should_fail (f : FaultInjector) : Bool × FaultInjector :=
  if f.config.enabled = false then (false, f)
  else
    let p := f.rng.gen_bool f.config.failure_probability
    if p.1 then
      (true, { f with rng := p.2,
                      faults_injected_count := f.faults_injected_count + 1 })
    else (false, { f with rng := p.2 })

/-- `FaultInjector::maybe_delay_ns()`: returns `(delay?, new injector)`. -/
def FaultInjector.maybe_delay_ns (f : FaultInjector) :
    Option Nat × FaultInjector :=
  if f.config.enabled = false ∨ f.config.delay_ns_max = 0 then (none, f)
  else
    let p := f.rng.gen_bool f.config.delay_probability
    if p.1 then
      let q := p.2.gen_range 1 (f.config.delay_ns_max + 1)
      (some q.1, { f with rng := q.2,
                          delays_injected_count := f.delays_injected_count + 1 })
    else (none, { f with rng := p.2 })

/-- `FaultInjector::should_crash()`: returns `(result, new injector)`. -/
def FaultInjector.should_crash (f : FaultInjector) : Bool × FaultInjector :=
  if f.config.enabled = false then (false, f)
  else
    let p := f.rng.gen_bool f.config.crash_probability
    if p.1 then
      (true, { f with rng := p.2,
                      crashes_injected_count := f.crashes_injected_count + 1 })
    else (false, { f with rng := p.2 })

/-- The inline corruption probability literal `0.0001` of `maybe_corrupt`. -/
def corruptProbability : ℚ := mkRat 1 10000

/-- `FaultInjector::maybe_corrupt(data)`: returns
`(flipped?, new buffer, new injector)`.  Bytes are `Nat < 256`;
`data[byte_idx] ^= 1 << bit_idx` is `List.set` with a xor. -/
def FaultInjector.maybe_corrupt (f : FaultInjector) (data : List Nat) :
    Bool × List Nat × FaultInjector :=
  if f.config.enabled = false ∨ data.isEmpty then (false, data, f)
  else
    let p := f.rng.gen_bool corruptProbability
    if p.1 then
      let q := p.2.gen_range 0 data.length
      let b := q.2.gen_range 0 8
      (true, data.set q.1 ((data.getD q.1 0) ^^^ (1 <<< b.1)),
        { f with rng := b.2 })
    else (false, data, { f with rng := p.2 })

/-! ## Scheduler (`vf-dst/src/scheduler.rs`)

`pick_other_thread` is a rejection-sampling `loop`; it is modelled with
explicit fuel, `none` standing for non-termination within the fuel. -/

inductive ScheduleDecision where
  | Continue : ScheduleDecision
  | Yield : ScheduleDecision
  | SwitchTo : Nat → ScheduleDecision
deriving DecidableEq

structure Scheduler where
  rng : DeterministicRng
  threads_count : Nat
  current_thread : Nat
  yield_probability : ℚ
  decisions_count : Nat

def Scheduler.new (rng : DeterministicRng) (threads_count : Nat)
    (yield_probability : ℚ) : Scheduler :=
  ⟨rng, threads_count, 0, yield_probability, 0⟩

/-- `Scheduler::with_defaults`: yield probability `0.1`. -/
def Scheduler.with_defaults (rng : DeterministicRng) (threads_count : Nat) :
    Scheduler :=
  Scheduler.new rng threads_count (mkRat 1 10)

/-- `Scheduler::pick_other_thread()`: draw `gen_range(0..threads_count)`
until the candidate differs from `current_thread`.  Fuel bounds the
number of rejection rounds. -/
def Scheduler.pick_other_thread (fuel : Nat) (s : Scheduler) :
    Option (Nat × Scheduler) :=
  match fuel with
  | 0 => Option.none
  | fuel + 1 =>
    let p := s.rng.gen_range 0 s.threads_count
    let s' := { s with rng := p.2 }
    if p.1 = s.current_thread then Scheduler.pick_other_thread fuel s'
    else some (p.1, s')

/-- `Scheduler::decide()`: `none` only when the inner rejection loop runs
out of fuel. -/
def Scheduler.decide (fuel : Nat) (s : Scheduler) :
    Option (ScheduleDecision × Scheduler) :=
  let s := { s with decisions_count := s.decisions_count + 1 }
  if s.threads_count = 1 then some (ScheduleDecision.Continue, s)
  else
    let p := s.rng.gen_bool s.yield_probability
    let s := { s with rng := p.2 }
    if p.1 then
      match Scheduler.pick_other_thread fuel s with
      | some (other, s') =>
        some (ScheduleDecision.SwitchTo other, { s' with current_thread := other })
      | Option.none => Option.none
    else some (ScheduleDecision.Continue, s)

/-- `Scheduler::force_switch()`: returns `(new current thread, state)`. -/
def Scheduler.force_switch (fuel : Nat) (s : Scheduler) :
    Option (Nat × Scheduler) :=
  let s := { s with decisions_count := s.decisions_count + 1 }
  if s.threads_count = 1 then some (0, s)
  else
    match Scheduler.pick_other_thread fuel s with
    | some (other, s') => some (other, { s' with current_thread := other })
    | Option.none => Option.none

/-- `Scheduler::set_current_thread(thread)` (the `debug_assert!` bound is a
theorem hypothesis). -/
def Scheduler.set_current_thread (s : Scheduler) (thread : Nat) : Scheduler :=
  { s with current_thread := thread }

/-- `Scheduler::add_thread()`: returns `(new index, state)`. -/
def Scheduler.add_thread (s : Scheduler) : Nat × Scheduler :=
  (s.threads_count, { s with threads_count := s.threads_count + 1 })

/-- `Scheduler::remove_thread(thread)` (the `debug_assert!`s are theorem
hypotheses; the arithmetic is the release-build behaviour). -/
def Scheduler.remove_thread (s : Scheduler) (thread : Nat) : Scheduler :=
  let s := { s with threads_count := s.threads_count - 1 }
  if s.current_thread = thread then
    { s with current_thread := if 0 < thread then thread - 1 else 0 }
  else if thread < s.current_thread then
    { s with current_thread := s.current_thread - 1 }
  else s

/-! ## DstEnv (`vf-dst/src/env.rs`) -/

structure DstEnv where
  seed : Nat
  clock : SimClock
  rng : DeterministicRng
  fault : FaultInjector
  scheduler : Option Scheduler

/-- `DstEnv::new(seed)`: sub-seeds drawn sequentially from a master RNG —
first the rng-seed, then the fault-seed. -/
def DstEnv.new (seed : Nat) : DstEnv :=
  let master := DeterministicRng.new seed
  let p := master.gen
  let q := p.2.gen
  ⟨seed, SimClock.new, DeterministicRng.new p.1,
    FaultInjector.with_default_config (DeterministicRng.new q.1), Option.none⟩

/-- `DstEnv::with_fault_config(seed, cfg)`. -/
def DstEnv.with_fault_config (seed : Nat) (fault_config : FaultConfig) : DstEnv :=
  let master := DeterministicRng.new seed
  let p := master.gen
  let q := p.2.gen
  ⟨seed, SimClock.new, DeterministicRng.new p.1,
    FaultInjector.new (DeterministicRng.new q.1) fault_config, Option.none⟩

/-- `DstEnv::with_scheduler(seed, threads_count)`: a third sched-seed is
drawn after the rng- and fault-seeds. -/
def DstEnv.with_scheduler (seed : Nat) (threads_count : Nat) : DstEnv :=
  let master := DeterministicRng.new seed
  let p := master.gen
  let q := p.2.gen
  let r := q.2.gen
  ⟨seed, SimClock.new, DeterministicRng.new p.1,
    FaultInjector.with_default_config (DeterministicRng.new q.1),
    some (Scheduler.with_defaults (DeterministicRng.new r.1) threads_count)⟩

/-- `DstEnv::fork_rng()`. -/
def DstEnv.fork_rng (env : DstEnv) : DeterministicRng × DstEnv :=
  let p := env.rng.fork
  (p.1, { env with rng := p.2 })

/-! ### Driving an environment through a sequence of calls

For the determinism hyperproperty the observable calls of the claim are
reified as an operation type and an interpreter. -/

inductive DstOp where
  | opGen : DstOp
  | opGenRange : Nat → Nat → DstOp
  | opGenBool : ℚ → DstOp
  | opForkRng : DstOp
  | opShouldFail : DstOp
  | opMaybeDelayNs : DstOp
  | opShouldCrash : DstOp
  | opSchedDecide : DstOp

inductive DstOut where
  | outNat : Nat → DstOut
  | outBool : Bool → DstOut
  | outOptNat : Option Nat → DstOut
  | outDecision : Option ScheduleDecision → DstOut
deriving DecidableEq

/-- One observable call against the environment. -/
def DstEnv.stepOp (env : DstEnv) : DstOp → DstOut × DstEnv
  | DstOp.opGen =>
    let p := env.rng.gen
    (DstOut.outNat p.1, { env with rng := p.2 })
  | DstOp.opGenRange lo hi =>
    let p := env.rng.gen_range lo hi
    (DstOut.outNat p.1, { env with rng := p.2 })
  | DstOp.opGenBool prob =>
    let p := env.rng.gen_bool prob
    (DstOut.outBool p.1, { env with rng := p.2 })
  | DstOp.opForkRng =>
    let p := env.fork_rng
    (DstOut.outNat p.1.seed, p.2)
  | DstOp.opShouldFail =>
    let p := env.fault.should_fail
    (DstOut.outBool p.1, { env with fault := p.2 })
  | DstOp.opMaybeDelayNs =>
    let p := env.fault.maybe_delay_ns
    (DstOut.outOptNat p.1, { env with fault := p.2 })
  | DstOp.opShouldCrash =>
    let p := env.fault.should_crash
    (DstOut.outBool p.1, { env with fault := p.2 })
  | DstOp.opSchedDecide =>
    match env.scheduler with
    | Option.none => (DstOut.outDecision Option.none, env)
    | some s =>
      match Scheduler.decide 64 s with
      | some (d, s') =>
        (DstOut.outDecision (some d), { env with scheduler := some s' })
      | Option.none => (DstOut.outDecision Option.none, env)

/-- The sequence of observations an environment produces on a sequence of
calls. -/
def runDstOps (env : DstEnv) : List DstOp → List DstOut
  | [] => []
  | op :: ops =>
    let p := env.stepOp op
    p.1 :: runDstOps p.2 ops

/-! ## Stack invariant checker (`vf-core/src/invariants/stack.rs`)

A `StackProperties` implementor exposes the pushed set, the popped set,
the current contents and an operation history.  The `HashSet<u64>`s are
modelled as lists (iteration order made explicit); element values are
`Nat`.  `PropertyResult`'s `counterexample` payload is elided — the
claims are about `holds` and the `violation` message. -/

inductive StackOpType where
  | Push : StackOpType
  | Pop : StackOpType
  | PopEmpty : StackOpType
deriving DecidableEq

structure StackOperation where
  thread_id : Nat
  op_type : StackOpType
  element : Option Nat
  step : Nat

/-- The observability capability of `StackProperties`, as data. -/
structure StackState where
  pushed : List Nat
  popped : List Nat
  contents : List Nat
  history : List StackOperation

structure PropertyResult where
  name : String
  tla_file : String
  tla_line : Nat
  holds : Bool
  violation : Option String

def PropertyResult.pass (name tla_file : String) (tla_line : Nat) :
    PropertyResult :=
  ⟨name, tla_file, tla_line, true, Option.none⟩

def PropertyResult.fail (name tla_file : String) (tla_line : Nat)
    (violation : String) : PropertyResult :=
  ⟨name, tla_file, tla_line, false, some violation⟩

/-- `TLA_SPEC`. -/
def TLA_SPEC : String := "treiber_stack.tla"

/-- The violation message of `check_no_lost_elements`. -/
def lostElementMsg (element : Nat) : String :=
  "Element " ++ toString element ++
    " was pushed but is neither in stack nor popped"

/-- `StackPropertyChecker::check_no_lost_elements`: scans the pushed set
for an element that is in neither the contents nor the popped set; fails
on the first such element. -/
def check_no_lost_elements (s : StackState) : PropertyResult :=
  match s.pushed.find? (fun e => !s.contents.contains e && !s.popped.contains e) with
  | some e => PropertyResult.fail "NoLostElements" TLA_SPEC 45 (lostElementMsg e)
  | Option.none => PropertyResult.pass "NoLostElements" TLA_SPEC 45

/-- The violation message of `check_lifo_order` (`expected` is the recorded
pop result, `actual` the model-stack top, in the source's argument order). -/
def lifoMsg (expected actual : Nat) : String :=
  "Pop returned " ++ toString expected ++ " but LIFO expected " ++
    toString actual

/-- The replay loop of `StackPropertyChecker::check_lifo_order`.  The Rust
`Vec` model stack (push/pop at the back) is a Lean list with its top at the
head.  A recorded successful pop is compared against the model top only
`if let Some(actual) = model_stack.pop()` — with an empty model the
operation is skipped. -/
def lifoReplay (model_stack : List Nat) : List StackOperation → PropertyResult
  | [] => PropertyResult.pass "LIFO_Order" TLA_SPEC 72
  | op :: rest =>
    match op.op_type with
    | StackOpType.Push =>
      match op.element with
      | some e => lifoReplay (e :: model_stack) rest
      | Option.none => lifoReplay model_stack rest
    | StackOpType.Pop =>
      match op.element with
      | some expected =>
        match model_stack with
        | actual :: tl =>
          if actual ≠ expected then
            PropertyResult.fail "LIFO_Order" TLA_SPEC 72 (lifoMsg expected actual)
          else lifoReplay tl rest
        | [] => lifoReplay [] rest
      | Option.none => lifoReplay model_stack rest
    | StackOpType.PopEmpty => lifoReplay model_stack rest

/-- `StackPropertyChecker::check_lifo_order`. -/
def check_lifo_order (s : StackState) : PropertyResult :=
  lifoReplay [] s.history

/-- Replay-state predicate: every recorded successful pop in `ops` is
reached (under `lifoReplay`'s own model evolution from `model_stack`) with
an empty model container. -/
def popsHitEmpty (model_stack : List Nat) : List StackOperation → Bool
  | [] => true
  | op :: rest =>
    match op.op_type with
    | StackOpType.Push =>
      match op.element with
      | some e => popsHitEmpty (e :: model_stack) rest
      | Option.none => popsHitEmpty model_stack rest
    | StackOpType.Pop =>
      match op.element with
      | some _ => model_stack.isEmpty && popsHitEmpty model_stack rest
      | Option.none => popsHitEmpty model_stack rest
    | StackOpType.PopEmpty => popsHitEmpty model_stack rest

/-! ## Statement-level definitions -/

/-- The scheduler's standing invariant: the current thread index is a
valid index into the thread set. -/
def Scheduler.Inv (s : Scheduler) : Prop :=
  s.current_thread < s.threads_count

/-- The `k`-th candidate the rejection loop of `pick_other_thread` would
examine, starting from state `s`. -/
def Scheduler.candAt (s : Scheduler) (k : Nat) : Nat :=
  ((s.rng.rng.iterate k).next).1 * s.threads_count / U64

/-! # Helper lemmas -/

theorem Xoshiro.next_fst_lt (st : Xoshiro) : (st.next).1 < U64 := by
  have : 0 < U64 := by decide
  exact Nat.mod_lt _ this

theorem DeterministicRng.gen_range_lt (r : DeterministicRng) (lo hi : Nat)
    (h : lo < hi) : (r.gen_range lo hi).1 < hi := by
  unfold DeterministicRng.gen_range
  have hv : (r.rng.next).1 < U64 := Xoshiro.next_fst_lt r.rng
  have hd : (r.rng.next).1 * (hi - lo) / U64 < hi - lo := by
    apply Nat.div_lt_of_lt_mul
    exact (Nat.mul_lt_mul_right (by omega : 0 < hi - lo)).mpr hv
  simp only
  omega

theorem DeterministicRng.gen_range_le (r : DeterministicRng) (lo hi : Nat) :
    lo ≤ (r.gen_range lo hi).1 := by
  unfold DeterministicRng.gen_range
  simp only
  exact Nat.le_add_right lo _

theorem DeterministicRng.gen_bool_calls (r : DeterministicRng) (p : ℚ) :
    ((r.gen_bool p).2).calls_count = r.calls_count + 1 := by
  unfold DeterministicRng.gen_bool
  split <;> rfl

theorem DeterministicRng.gen_range_calls (r : DeterministicRng) (lo hi : Nat) :
    ((r.gen_range lo hi).2).calls_count = r.calls_count + 1 := rfl

/-! # Claims -/

/-- C4: for every clock state and every `d > 0` with `now + d` within the
reserved bound, `advance_ns d` succeeds and increases `now_ns` by exactly
`d`; `advance_ns 0` is rejected (`none`), never a silent no-op. -/
theorem c4_clock_advance (c : SimClock) (d : Nat) (h0 : 0 < d)
    (hb : c.now_ns + d ≤ TIME_NS_MAX) :
    (∃ c', c.advance_ns d = some c' ∧ c'.now_ns = c.now_ns + d) ∧
      SimClock.advance_ns c 0 = Option.none := by
  constructor
  · refine ⟨⟨c.now_ns + d⟩, ?_, rfl⟩
    unfold SimClock.advance_ns
    rw [if_neg (by omega), if_neg (by omega), if_neg (by omega)]
  · unfold SimClock.advance_ns
    rw [if_pos rfl]

theorem c4_clock_advance_witness :
    (∃ c', SimClock.advance_ns SimClock.new 5 = some c' ∧
        c'.now_ns = SimClock.new.now_ns + 5) ∧
      SimClock.advance_ns SimClock.new 0 = Option.none :=
  c4_clock_advance SimClock.new 5 (by decide) (by decide)

/-- C6: `remove_thread i` on a scheduler with at least two threads and a
valid `i` decrements `threads_count` and adjusts `current_thread`: to
`i - 1` (or 0 when `i = 0`) when `i` was current, down by one when `i` is
below current, unchanged otherwise; and Scenario D: 4 threads, set current
to 3, remove 1, current becomes 2. -/
theorem c6_remove_thread (s : Scheduler) (i : Nat) (h2 : 2 ≤ s.threads_count)
    (hi : i < s.threads_count) :
    ((s.remove_thread i).threads_count = s.threads_count - 1 ∧
     (s.remove_thread i).current_thread =
       (if s.current_thread = i then (if 0 < i then i - 1 else 0)
        else if i < s.current_thread then s.current_thread - 1
        else s.current_thread)) ∧
    (((Scheduler.with_defaults (DeterministicRng.new 12345) 4).set_current_thread
        3).remove_thread 1).current_thread = 2 := by
  refine ⟨⟨?_, ?_⟩, ?_⟩
  · simp only [Scheduler.remove_thread]
    split_ifs <;> rfl
  · simp only [Scheduler.remove_thread]
    split_ifs <;> rfl
  · rfl

theorem c6_remove_thread_witness :
    (((Scheduler.with_defaults (DeterministicRng.new 7) 4).remove_thread
        1).threads_count =
      (Scheduler.with_defaults (DeterministicRng.new 7) 4).threads_count - 1 ∧
     ((Scheduler.with_defaults (DeterministicRng.new 7) 4).remove_thread
        1).current_thread =
       (if (Scheduler.with_defaults (DeterministicRng.new 7) 4).current_thread
            = 1 then
          (if 0 < 1 then 1 - 1 else 0)
        else if 1 <
            (Scheduler.with_defaults (DeterministicRng.new 7) 4).current_thread
          then
          (Scheduler.with_defaults (DeterministicRng.new 7) 4).current_thread - 1
        else
          (Scheduler.with_defaults (DeterministicRng.new 7) 4).current_thread)) ∧
    (((Scheduler.with_defaults (DeterministicRng.new 12345) 4).set_current_thread
        3).remove_thread 1).current_thread = 2 :=
  c6_remove_thread (Scheduler.with_defaults (DeterministicRng.new 7) 4) 1
    (by decide) (by decide)

/-- C3: the master `DeterministicRng.new s` yields the rng-seed as its
first `u64`, the fault-seed as its second, and a sched-seed as its third
drawn only when a scheduler is requested; `new`, `with_fault_config` and
`with_scheduler` all give the rng and fault components those same two
first sub-seeds. -/
theorem c3_subseed_order (s : Nat) (hs : s ≠ 0) :
    ((DstEnv.new s).rng.seed = ((DeterministicRng.new s).gen).1 ∧
     (DstEnv.new s).fault.rng.seed = (((DeterministicRng.new s).gen).2.gen).1 ∧
     (DstEnv.new s).scheduler = Option.none) ∧
    (∀ cfg : FaultConfig,
       (DstEnv.with_fault_config s cfg).rng.seed =
           ((DeterministicRng.new s).gen).1 ∧
       (DstEnv.with_fault_config s cfg).fault.rng.seed =
           (((DeterministicRng.new s).gen).2.gen).1 ∧
       (DstEnv.with_fault_config s cfg).scheduler = Option.none) ∧
    (∀ n : Nat,
       (DstEnv.with_scheduler s n).rng.seed =
           ((DeterministicRng.new s).gen).1 ∧
       (DstEnv.with_scheduler s n).fault.rng.seed =
           (((DeterministicRng.new s).gen).2.gen).1 ∧
       ∃ sch, (DstEnv.with_scheduler s n).scheduler = some sch ∧
         sch.rng.seed = ((((DeterministicRng.new s).gen).2.gen).2.gen).1) :=
  ⟨⟨rfl, rfl, rfl⟩, fun _ => ⟨rfl, rfl, rfl⟩,
   fun _ => ⟨rfl, rfl, _, rfl, rfl⟩⟩

theorem c3_subseed_order_witness :
    (DstEnv.new 42).rng.seed = ((DeterministicRng.new 42).gen).1 ∧
    (DstEnv.new 42).fault.rng.seed =
      (((DeterministicRng.new 42).gen).2.gen).1 ∧
    (DstEnv.new 42).scheduler = Option.none :=
  (c3_subseed_order 42 (by decide)).1

/-- C1: determinism hyperproperty — two environments independently
constructed from the same nonzero seed (with `new`, or with
`with_scheduler` at the same thread count), driven through the same
sequence of calls (randomness draws, fork, fault decisions, scheduler
decisions), produce identical observation sequences. -/
theorem c1_determinism (s : Nat) (hs : s ≠ 0) (n : Nat) (ops : List DstOp)
    (env1 env2 : DstEnv) :
    (env1 = DstEnv.new s → env2 = DstEnv.new s →
       runDstOps env1 ops = runDstOps env2 ops) ∧
    (env1 = DstEnv.with_scheduler s n → env2 = DstEnv.with_scheduler s n →
       runDstOps env1 ops = runDstOps env2 ops) := by
  constructor <;> (rintro rfl rfl; rfl)

theorem c1_determinism_witness :
    runDstOps (DstEnv.new 42)
        [DstOp.opGen, DstOp.opShouldFail, DstOp.opMaybeDelayNs] =
      runDstOps (DstEnv.new 42)
        [DstOp.opGen, DstOp.opShouldFail, DstOp.opMaybeDelayNs] :=
  (c1_determinism 42 (by decide) 2
      [DstOp.opGen, DstOp.opShouldFail, DstOp.opMaybeDelayNs]
      (DstEnv.new 42) (DstEnv.new 42)).1 rfl rfl

/-- C2 counterexample: with fault injection disabled
(`FaultConfig::none()`), `should_fail` advances the injector's private
RNG call count by zero, not by exactly one. -/
theorem c2_counterexample :
    ¬ (((FaultInjector.new (DeterministicRng.new 1)
            FaultConfig.none).should_fail).2.rng.calls_count =
        (FaultInjector.new (DeterministicRng.new 1)
            FaultConfig.none).rng.calls_count + 1) := by
  decide

/-- C2 (amended): when disabled every decision operation leaves the
injector (hence its RNG call count) unchanged; when enabled,
`should_fail` and `should_crash` advance the private RNG call count by
exactly one; `maybe_delay_ns` by one when no delay fires and by two when
one fires, and by zero when `delay_ns_max` is 0 (enabled or not);
`maybe_corrupt` by one when no corruption fires and by three when one
fires, and by zero on an empty buffer (enabled or not). -/
theorem c2_draw_accounting (f : FaultInjector) (data : List Nat) :
    (f.config.enabled = false →
       f.should_fail = (false, f) ∧ f.should_crash = (false, f) ∧
       f.maybe_delay_ns = (Option.none, f) ∧
       f.maybe_corrupt data = (false, data, f)) ∧
    (f.config.enabled = true →
       (f.should_fail).2.rng.calls_count = f.rng.calls_count + 1 ∧
       (f.should_crash).2.rng.calls_count = f.rng.calls_count + 1) ∧
    (f.config.enabled = true → f.config.delay_ns_max ≠ 0 →
       ((f.maybe_delay_ns).1 = Option.none →
          (f.maybe_delay_ns).2.rng.calls_count = f.rng.calls_count + 1) ∧
       ((f.maybe_delay_ns).1 ≠ Option.none →
          (f.maybe_delay_ns).2.rng.calls_count = f.rng.calls_count + 2)) ∧
    (f.config.enabled = true → data ≠ [] →
       ((f.maybe_corrupt data).1 = false →
          (f.maybe_corrupt data).2.2.rng.calls_count = f.rng.calls_count + 1) ∧
       ((f.maybe_corrupt data).1 = true →
          (f.maybe_corrupt data).2.2.rng.calls_count =
            f.rng.calls_count + 3)) ∧
    (f.config.delay_ns_max = 0 → f.maybe_delay_ns = (Option.none, f)) ∧
    f.maybe_corrupt [] = (false, [], f) := by
  refine ⟨?_, ?_, ?_, ?_, ?_, ?_⟩
  · intro hd
    refine ⟨?_, ?_, ?_, ?_⟩
    · unfold FaultInjector.should_fail
      rw [if_pos hd]
    · unfold FaultInjector.should_crash
      rw [if_pos hd]
    · unfold FaultInjector.maybe_delay_ns
      rw [if_pos (Or.inl hd)]
    · unfold FaultInjector.maybe_corrupt
      rw [if_pos (Or.inl hd)]
  · intro he
    have hne : ¬ (f.config.enabled = false) := by simp [he]
    constructor
    · unfold FaultInjector.should_fail
      rw [if_neg hne]
      dsimp only
      split <;> simp [DeterministicRng.gen_bool_calls]
    · unfold FaultInjector.should_crash
      rw [if_neg hne]
      dsimp only
      split <;> simp [DeterministicRng.gen_bool_calls]
  · intro he hm
    have hne : ¬ (f.config.enabled = false ∨ f.config.delay_ns_max = 0) := by
      simp [he, hm]
    unfold FaultInjector.maybe_delay_ns
    rw [if_neg hne]
    by_cases hb : (f.rng.gen_bool f.config.delay_probability).1
    · rw [if_pos hb]
      constructor
      · intro hcontra
        simp at hcontra
      · intro _
        simp [DeterministicRng.gen_range_calls, DeterministicRng.gen_bool_calls]
    · rw [if_neg hb]
      constructor
      · intro _
        simp [DeterministicRng.gen_bool_calls]
      · intro hcontra
        simp at hcontra
  · intro he hd
    have hne : ¬ (f.config.enabled = false ∨ data.isEmpty = true) := by
      simp [he, hd]
    unfold FaultInjector.maybe_corrupt
    rw [if_neg hne]
    by_cases hb : (f.rng.gen_bool corruptProbability).1
    · rw [if_pos hb]
      constructor
      · intro hcontra
        simp at hcontra
      · intro _
        simp [DeterministicRng.gen_range_calls, DeterministicRng.gen_bool_calls]
    · rw [if_neg hb]
      constructor
      · intro _
        simp [DeterministicRng.gen_bool_calls]
      · intro hcontra
        simp at hcontra
  · intro hm0
    unfold FaultInjector.maybe_delay_ns
    rw [if_pos (Or.inr hm0)]
  · unfold FaultInjector.maybe_corrupt
    have hnil : ([] : List Nat).isEmpty = true := by simp
    rw [if_pos (Or.inr hnil)]

theorem c2_draw_accounting_witness :
    ((FaultInjector.with_default_config
        (DeterministicRng.new 1)).should_fail).2.rng.calls_count =
      (FaultInjector.with_default_config
        (DeterministicRng.new 1)).rng.calls_count + 1 :=
  ((c2_draw_accounting
      (FaultInjector.with_default_config (DeterministicRng.new 1)) []).2.1
    rfl).1

/-! Soundness of the rejection-sampling loop (shared by C5 and C7). -/

theorem Scheduler.pick_other_sound (fuel : Nat) (s : Scheduler) (c : Nat)
    (s' : Scheduler) (hn : 0 < s.threads_count)
    (h : Scheduler.pick_other_thread fuel s = some (c, s')) :
    c < s.threads_count ∧ c ≠ s.current_thread ∧
      s'.threads_count = s.threads_count ∧
      s'.current_thread = s.current_thread := by
  induction fuel generalizing s with
  | zero => simp [Scheduler.pick_other_thread] at h
  | succ k ih =>
    unfold Scheduler.pick_other_thread at h
    by_cases hc : (s.rng.gen_range 0 s.threads_count).1 = s.current_thread
    · rw [if_pos hc] at h
      exact ih { s with rng := (s.rng.gen_range 0 s.threads_count).2 } hn h
    · rw [if_neg hc] at h
      cases h
      exact ⟨DeterministicRng.gen_range_lt s.rng 0 s.threads_count hn, hc,
        rfl, rfl⟩

/-- C5: every scheduler operation preserves the invariant
`current_thread < threads_count` (under its documented preconditions). -/
theorem c5_scheduler_invariant :
    (∀ (s : Scheduler) (fuel : Nat) (d : ScheduleDecision) (s' : Scheduler),
        Scheduler.Inv s → Scheduler.decide fuel s = some (d, s') →
        Scheduler.Inv s') ∧
    (∀ (s : Scheduler) (fuel t : Nat) (s' : Scheduler),
        Scheduler.Inv s → Scheduler.force_switch fuel s = some (t, s') →
        Scheduler.Inv s') ∧
    (∀ (s : Scheduler) (i : Nat), i < s.threads_count →
        Scheduler.Inv (s.set_current_thread i)) ∧
    (∀ s : Scheduler, Scheduler.Inv s → Scheduler.Inv (s.add_thread).2) ∧
    (∀ (s : Scheduler) (i : Nat), Scheduler.Inv s → 2 ≤ s.threads_count →
        i < s.threads_count → Scheduler.Inv (s.remove_thread i)) := by
  refine ⟨?_, ?_, ?_, ?_, ?_⟩
  · intro s fuel d s' hInv h
    unfold Scheduler.decide at h
    dsimp only at h
    split at h
    · cases h
      exact hInv
    · split at h
      · split at h
        · rename_i other s'' heq
          cases h
          have hp := Scheduler.pick_other_sound fuel _ other s''
            (by exact Nat.lt_of_le_of_lt (Nat.zero_le _) hInv) heq
          unfold Scheduler.Inv
          dsimp only at hp ⊢
          omega
        · exact absurd h (by simp)
      · cases h
        exact hInv
  · intro s fuel t s' hInv h
    unfold Scheduler.force_switch at h
    dsimp only at h
    split at h
    · cases h
      exact hInv
    · split at h
      · rename_i other s'' heq
        cases h
        have hp := Scheduler.pick_other_sound fuel _ t s''
          (by exact Nat.lt_of_le_of_lt (Nat.zero_le _) hInv) heq
        unfold Scheduler.Inv
        dsimp only at hp ⊢
        omega
      · exact absurd h (by simp)
  · intro s i hi
    exact hi
  · intro s hInv
    exact Nat.lt_succ_of_lt hInv
  · intro s i hInv h2 hi
    unfold Scheduler.Inv at hInv ⊢
    simp only [Scheduler.remove_thread]
    split_ifs <;> dsimp only <;> omega

theorem c5_scheduler_invariant_witness :
    Scheduler.Inv
      ((Scheduler.with_defaults (DeterministicRng.new 7) 4).remove_thread 1) :=
  c5_scheduler_invariant.2.2.2.2
    (Scheduler.with_defaults (DeterministicRng.new 7) 4) 1
    (by unfold Scheduler.Inv; decide) (by decide) (by decide)

/-! Candidate-stream bookkeeping for the termination part of C7. -/

theorem Scheduler.candAt_zero (s : Scheduler) :
    Scheduler.candAt s 0 = (s.rng.gen_range 0 s.threads_count).1 := by
  unfold Scheduler.candAt DeterministicRng.gen_range Xoshiro.iterate
  simp [Nat.zero_add, Nat.sub_zero]

theorem Scheduler.candAt_succ (s : Scheduler) (k : Nat) :
    Scheduler.candAt s (k + 1) =
      Scheduler.candAt
        { s with rng := (s.rng.gen_range 0 s.threads_count).2 } k := rfl

theorem Scheduler.pick_other_term (fuel : Nat) (s : Scheduler)
    (h : ∃ k, k < fuel ∧ Scheduler.candAt s k ≠ s.current_thread) :
    ∃ out, Scheduler.pick_other_thread fuel s = some out := by
  induction fuel generalizing s with
  | zero =>
    obtain ⟨k, hk, _⟩ := h
    omega
  | succ n ih =>
    unfold Scheduler.pick_other_thread
    by_cases hc : (s.rng.gen_range 0 s.threads_count).1 = s.current_thread
    · rw [if_pos hc]
      apply ih
      obtain ⟨k, hk, hne⟩ := h
      match k with
      | 0 =>
        rw [Scheduler.candAt_zero] at hne
        exact absurd hc hne
      | k + 1 =>
        refine ⟨k, by omega, ?_⟩
        rw [← Scheduler.candAt_succ]
        exact hne
    · rw [if_neg hc]
      exact ⟨_, rfl⟩

/-- C7: whenever the rejection-sampling selection returns, its index is
below `threads_count` and differs from the current index; with at least
two threads it terminates as soon as the candidate stream is not stuck on
the current index; and with a single thread `decide` always returns
`Continue`. -/
theorem c7_pick_other_valid :
    (∀ (s : Scheduler) (fuel c : Nat) (s' : Scheduler),
        0 < s.threads_count →
        Scheduler.pick_other_thread fuel s = some (c, s') →
        c < s.threads_count ∧ c ≠ s.current_thread) ∧
    (∀ s : Scheduler, 2 ≤ s.threads_count →
        (∃ k, Scheduler.candAt s k ≠ s.current_thread) →
        ∃ fuel out, Scheduler.pick_other_thread fuel s = some out) ∧
    (∀ (s : Scheduler) (fuel : Nat), s.threads_count = 1 →
        ∃ s', Scheduler.decide fuel s =
          some (ScheduleDecision.Continue, s')) := by
  refine ⟨?_, ?_, ?_⟩
  · intro s fuel c s' hn h
    have hp := Scheduler.pick_other_sound fuel s c s' hn h
    exact ⟨hp.1, hp.2.1⟩
  · intro s h2 hex
    obtain ⟨k, hk⟩ := hex
    exact ⟨k + 1, Scheduler.pick_other_term (k + 1) s ⟨k, Nat.lt_succ_self k, hk⟩⟩
  · intro s fuel h1
    unfold Scheduler.decide
    dsimp only
    rw [if_pos h1]
    exact ⟨_, rfl⟩

theorem c7_pick_other_valid_witness :
    (∃ fuel out, Scheduler.pick_other_thread fuel
        (Scheduler.with_defaults (DeterministicRng.new 1) 4) = some out) ∧
    (∃ s', Scheduler.decide 3
        (Scheduler.with_defaults (DeterministicRng.new 2) 1) =
      some (ScheduleDecision.Continue, s')) :=
  ⟨c7_pick_other_valid.2.1 (Scheduler.with_defaults (DeterministicRng.new 1) 4)
      (by decide) ⟨0, by decide⟩,
   c7_pick_other_valid.2.2 (Scheduler.with_defaults (DeterministicRng.new 2) 1)
      3 rfl⟩

/-! Bit-flip helper lemmas for C8. -/

theorem xor_bit_ne (x b : Nat) : x ^^^ (1 <<< b) ≠ x := by
  intro hc
  have h2 : x ^^^ (x ^^^ (1 <<< b)) = x ^^^ x := congrArg (x ^^^ ·) hc
  rw [← Nat.xor_assoc, Nat.xor_self, Nat.zero_xor] at h2
  rw [Nat.shiftLeft_eq, Nat.one_mul] at h2
  have hp : 0 < 2 ^ b := pow_pos (by decide) b
  omega

theorem set_xor_bit_ne (l : List Nat) (i b : Nat) (hi : i < l.length) :
    l.set i ((l.getD i 0) ^^^ (1 <<< b)) ≠ l := by
  induction l generalizing i with
  | nil => simp at hi
  | cons x xs ih =>
    cases i with
    | zero =>
      intro hc
      have hx : x ^^^ (1 <<< b) = x := by
        have := congrArg (fun t => t.headD 0) hc
        simpa using this
      exact xor_bit_ne x b hx
    | succ j =>
      intro hc
      have hj : j < xs.length := by simpa using hi
      have ht : xs.set j ((xs.getD j 0) ^^^ (1 <<< b)) = xs := by
        have := congrArg List.tail hc
        simpa using this
      exact ih j hj ht

/-- C8: one `maybe_corrupt` call changes at most one bit — when it
returns `true` the new buffer is the old one with exactly one bit of one
byte xor-flipped (hence differs from the old buffer), when it returns
`false` the buffer is unchanged; the flip decision is the Bernoulli draw
at the fixed probability `0.0001` (0.01%). -/
theorem c8_corrupt_frame (f : FaultInjector) (data : List Nat) :
    ((f.maybe_corrupt data).1 = true →
       ∃ i b, i < data.length ∧ b < 8 ∧
         (f.maybe_corrupt data).2.1 =
           data.set i ((data.getD i 0) ^^^ (1 <<< b)) ∧
         (f.maybe_corrupt data).2.1 ≠ data) ∧
    ((f.maybe_corrupt data).1 = false → (f.maybe_corrupt data).2.1 = data) ∧
    (f.config.enabled = true → data ≠ [] →
       (f.maybe_corrupt data).1 = (f.rng.gen_bool corruptProbability).1) ∧
    corruptProbability = 1 / 10000 := by
  by_cases hg : f.config.enabled = false ∨ data.isEmpty
  · have hval : f.maybe_corrupt data = (false, data, f) := by
      unfold FaultInjector.maybe_corrupt
      rw [if_pos hg]
    refine ⟨?_, ?_, ?_, by norm_num [corruptProbability, Rat.mkRat_eq_div]⟩
    · intro hc
      rw [hval] at hc
      simp at hc
    · intro _
      rw [hval]
    · intro he hd
      exfalso
      rcases hg with hg | hg
      · rw [he] at hg
        simp at hg
      · cases data with
        | nil => exact hd rfl
        | cons a tl => simp at hg
  · have hlen : 0 < data.length := by
      have hd := (not_or.mp hg).2
      cases data with
      | nil => simp at hd
      | cons a tl => simp
    by_cases hb : (f.rng.gen_bool corruptProbability).1
    · have hval : f.maybe_corrupt data = (true,
          data.set ((f.rng.gen_bool corruptProbability).2.gen_range 0
              data.length).1
            ((data.getD ((f.rng.gen_bool corruptProbability).2.gen_range 0
                data.length).1 0) ^^^
              (1 <<< ((((f.rng.gen_bool corruptProbability).2.gen_range 0
                  data.length).2.gen_range 0 8).1))),
          { f with rng := (((f.rng.gen_bool corruptProbability).2.gen_range 0
              data.length).2.gen_range 0 8).2 }) := by
        unfold FaultInjector.maybe_corrupt
        rw [if_neg hg]
        dsimp only
        rw [if_pos hb]
      refine ⟨?_, ?_, ?_, by norm_num [corruptProbability, Rat.mkRat_eq_div]⟩
      · intro _
        refine ⟨((f.rng.gen_bool corruptProbability).2.gen_range 0
            data.length).1,
          (((f.rng.gen_bool corruptProbability).2.gen_range 0
              data.length).2.gen_range 0 8).1,
          DeterministicRng.gen_range_lt _ 0 data.length hlen,
          DeterministicRng.gen_range_lt _ 0 8 (by decide), ?_, ?_⟩
        · rw [hval]
        · rw [hval]
          exact set_xor_bit_ne data _ _
            (DeterministicRng.gen_range_lt _ 0 data.length hlen)
      · intro hc
        rw [hval] at hc
        simp at hc
      · intro _ _
        rw [hval]
        exact hb.symm
    · have hval : f.maybe_corrupt data = (false, data,
          { f with rng := (f.rng.gen_bool corruptProbability).2 }) := by
        unfold FaultInjector.maybe_corrupt
        rw [if_neg hg]
        dsimp only
        rw [if_neg hb]
      refine ⟨?_, ?_, ?_, by norm_num [corruptProbability, Rat.mkRat_eq_div]⟩
      · intro hc
        rw [hval] at hc
        simp at hc
      · intro _
        rw [hval]
      · intro _ _
        rw [hval]
        simp only
        exact (Bool.not_eq_true _).mp hb |>.symm

theorem c8_corrupt_frame_witness :
    ((FaultInjector.with_default_config
        (DeterministicRng.new 1)).maybe_corrupt [170]).2.1 = [170] :=
  (c8_corrupt_frame (FaultInjector.with_default_config
      (DeterministicRng.new 1)) [170]).2.1 (by decide)

/-- C9: `check_no_lost_elements` passes exactly when every pushed element
is still in the contents or in the popped set; on failure the violation
message names a lost element (one in neither set). -/
theorem c9_no_lost_elements (s : StackState) :
    ((check_no_lost_elements s).holds = true ↔
       ∀ e ∈ s.pushed, e ∈ s.contents ∨ e ∈ s.popped) ∧
    ((check_no_lost_elements s).holds = false →
       ∃ e, e ∈ s.pushed ∧ e ∉ s.contents ∧ e ∉ s.popped ∧
         (check_no_lost_elements s).violation = some (lostElementMsg e)) := by
  unfold check_no_lost_elements
  cases hf : s.pushed.find?
      (fun e => !s.contents.contains e && !s.popped.contains e) with
  | none =>
    refine ⟨⟨fun _ e he => ?_, fun _ => rfl⟩,
      fun hc => by simp [PropertyResult.pass] at hc⟩
    have hp := List.find?_eq_none.mp hf e he
    simp only [Bool.and_eq_true, Bool.not_eq_true', not_and] at hp
    by_cases h1 : e ∈ s.contents
    · exact Or.inl h1
    · right
      by_cases h2 : e ∈ s.popped
      · exact h2
      · exfalso
        apply hp
        · simp [h1]
        · simp [h2]
  | some e =>
    have hmem := List.mem_of_find?_eq_some hf
    have hpe := List.find?_some hf
    simp only [Bool.and_eq_true, Bool.not_eq_true'] at hpe
    have h1 : e ∉ s.contents := by
      intro hc
      have := hpe.1
      simp [hc] at this
    have h2 : e ∉ s.popped := by
      intro hc
      have := hpe.2
      simp [hc] at this
    refine ⟨⟨fun hc => by simp [PropertyResult.fail] at hc, fun hall => ?_⟩,
      fun _ => ⟨e, hmem, h1, h2, rfl⟩⟩
    exfalso
    rcases hall e hmem with h | h
    · exact h1 h
    · exact h2 h

theorem c9_no_lost_elements_witness :
    ∃ e, e ∈ (⟨[1, 2, 3], [1], [2], []⟩ : StackState).pushed ∧
      e ∉ (⟨[1, 2, 3], [1], [2], []⟩ : StackState).contents ∧
      e ∉ (⟨[1, 2, 3], [1], [2], []⟩ : StackState).popped ∧
      (check_no_lost_elements ⟨[1, 2, 3], [1], [2], []⟩).violation =
        some (lostElementMsg e) :=
  (c9_no_lost_elements ⟨[1, 2, 3], [1], [2], []⟩).2 (by decide)

/-- C10: in the LIFO replay a recorded successful pop is silently skipped
when the model container is empty; consequently every history whose
recorded successful pops all occur at an empty model passes
`check_lifo_order`, matching pushes or not. -/
theorem c10_lifo_pop_empty_skipped :
    (∀ (op : StackOperation) (rest : List StackOperation) (e : Nat),
        op.op_type = StackOpType.Pop → op.element = some e →
        lifoReplay [] (op :: rest) = lifoReplay [] rest) ∧
    (∀ (model : List Nat) (ops : List StackOperation),
        popsHitEmpty model ops = true → (lifoReplay model ops).holds = true) ∧
    (∀ s : StackState, popsHitEmpty [] s.history = true →
        (check_lifo_order s).holds = true) := by
  have key : ∀ (ops : List StackOperation) (model : List Nat),
      popsHitEmpty model ops = true → (lifoReplay model ops).holds = true := by
    intro ops
    induction ops with
    | nil =>
      intro model _
      rfl
    | cons op rest ih =>
      intro model h
      obtain ⟨tid, oty, oel, stp⟩ := op
      cases oty <;> cases oel <;>
          simp only [lifoReplay, popsHitEmpty] at h ⊢ <;>
          try exact ih _ h
      rename_i e
      cases model with
      | nil =>
        simp only [List.isEmpty_nil, Bool.true_and] at h
        exact ih _ h
      | cons a tl =>
        simp at h
  refine ⟨?_, fun model ops => key ops model, fun s hs => key s.history [] hs⟩
  intro op rest e hop hel
  obtain ⟨tid, oty, oel, stp⟩ := op
  simp only at hop hel
  subst hop
  subst hel
  rfl

theorem c10_lifo_pop_empty_skipped_witness :
    (check_lifo_order
      ⟨[], [5], [], [⟨0, StackOpType.Pop, some 5, 1⟩]⟩).holds = true :=
  c10_lifo_pop_empty_skipped.2.2
    ⟨[], [5], [], [⟨0, StackOpType.Pop, some 5, 1⟩]⟩ (by decide)

end VC
